import Mathlib

/-!
Verification of the `test-state-with-keys` auction contract.

The repository contains two variants of the same NEAR auction contract:
* `src/src/lib.rs` — state kept in raw storage key/value slots
  (`storage_read` / `storage_write` on named byte keys);
* `tests/default-contract/src/lib.rs` — state kept in struct fields of
  `Contract`.

We embed both variants shallowly.  Storage is an association list from an
inductive `Key` type (one constructor per distinct byte-string key the
source uses) to a typed `Value` (borsh serialization of each Rust value is
injective per type, so storing the typed value and failing deserialization
on a constructor mismatch is a faithful model of
`borsh::from_slice(..).unwrap()`).  Host environment inputs (block
timestamp, block height, epoch height, caller, attached deposit, current
account) are an explicit `Env` record passed per call.  A `require!`
failure or a failed `unwrap` aborts the NEAR call and reverts it, which we
model by `Except`: an erroneous call returns `.error e` and the caller
keeps the pre-call state.
-/

/-- Account identifiers (`near_sdk::AccountId`), modelled as strings. -/
abbrev AccountId := String

/-- A token amount in yoctoNEAR (`NearToken`, a u128).  The contract only
compares and copies amounts, never does arithmetic on them, so `Nat` is an
exact model. -/
abbrev Token := Nat

/-- The `Bid` record of both variants (`struct Bid` in both lib.rs files).
`bid_time` and `bid_block_timestamp` are both filled from
`env::block_timestamp()` in the source. -/
structure Bid where
  bidder : AccountId
  bid : Token
  bid_time : Nat
  bid_block_height : Nat
  bid_block_timestamp : Nat
  bid_epoch_height : Nat
  premium : Bool
deriving DecidableEq, Repr

/-- Per-call host environment: the values of the `near_sdk::env` oracle
functions during one call. -/
structure Env where
  current_account_id : AccountId
  predecessor_account_id : AccountId
  attached_deposit : Token
  block_timestamp : Nat
  block_height : Nat
  epoch_height : Nat
deriving DecidableEq, Repr

/-- A transfer instruction: `Promise::new(to).transfer(amount)`. -/
structure Transfer where
  recipient : AccountId
  amount : Token
deriving DecidableEq, Repr

/-- Call-aborting errors.  The first four are the `require!` messages of
the source; `storageCorrupt` models a panic from `.unwrap()` on a missing
or undeserializable storage slot. -/
inductive CallError where
  /-- "Auction has ended" -/
  | auctionEnded
  /-- "You must place a higher bid" -/
  | bidTooLow
  /-- "Auction has not ended yet" -/
  | auctionNotEnded
  /-- "Auction has already been claimed" -/
  | alreadyClaimed
  /-- panic from `.unwrap()` on storage read / deserialization -/
  | storageCorrupt
deriving DecidableEq, Repr

/-- Storage keys used by the key-value variant.  Each constructor stands
for one distinct byte-string key of the source: `highest_bid`,
`auction_end_time`, `auctioneer`, `claimed`, `vector`, `s`, `i`, `a` are
the literal keys; `sElem n` stands for the element slot the sdk vector
with storage prefix `b"s"` writes for index `n` (the prefix byte followed
by the index bytes), and `mElem n` for an entry slot of the sdk iterable
map (prefix `b"m"`).  All these byte strings are pairwise distinct in the
source, matching the freeness of the constructors. -/
inductive Key where
  | highest_bid
  | auction_end_time
  | auctioneer
  | claimed
  | vector
  | s
  | i
  | a
  | sElem (n : Nat)
  | mElem (n : Nat)
deriving DecidableEq, Repr

/-- Typed stored values: each constructor is one borsh-serialized Rust
type the contract stores.  `vNat` covers `U64`, the u8 collection
elements and the length/size metadata of the sdk collections, `vBytes` a
`Vec<u8>`. -/
inductive Value where
  | vBid (b : Bid)
  | vNat (n : Nat)
  | vAcc (a : AccountId)
  | vBool (b : Bool)
  | vBytes (l : List Nat)
deriving DecidableEq, Repr

/-- The key-value store: newest write first; `storage_write` shadows. -/
abbrev Store := List (Key × Value)

/-- `near_sdk::env::storage_read`: the value of the latest write to `k`. -/
def storage_read : Store → Key → Option Value
  | [], _ => none
  | (k, v) :: st, k' => if k' = k then some v else storage_read st k'

/-- `near_sdk::env::storage_write`. -/
def storage_write (st : Store) (k : Key) (v : Value) : Store :=
  (k, v) :: st

/-- Read a slot and borsh-deserialize it as a `Bid`; `none` models the
panic of `storage_read(..).unwrap()` / `borsh::from_slice(..).unwrap()`. -/
def readBid (st : Store) (k : Key) : Option Bid :=
  match storage_read st k with
  | some (.vBid b) => some b
  | _ => none

/-- Read a slot as a `U64` number. -/
def readNat (st : Store) (k : Key) : Option Nat :=
  match storage_read st k with
  | some (.vNat n) => some n
  | _ => none

/-- Read a slot as an `AccountId`. -/
def readAcc (st : Store) (k : Key) : Option AccountId :=
  match storage_read st k with
  | some (.vAcc a) => some a
  | _ => none

/-- Read a slot as a `bool`. -/
def readBool (st : Store) (k : Key) : Option Bool :=
  match storage_read st k with
  | some (.vBool b) => some b
  | _ => none

/-- Read a slot as a `Vec<u8>`. -/
def readBytes (st : Store) (k : Key) : Option (List Nat) :=
  match storage_read st k with
  | some (.vBytes l) => some l
  | _ => none

/-- The fresh `Bid` record both variants construct (in `init` with
amount 1 and the contract's own account, in `bid` with the attached
deposit and the caller). -/
def mkBid (bidder : AccountId) (amount : Token) (env : Env) : Bid :=
  { bidder := bidder
    bid := amount
    bid_time := env.block_timestamp
    bid_block_height := env.block_height
    bid_block_timestamp := env.block_timestamp
    bid_epoch_height := env.epoch_height
    premium := false }

namespace KV

/-- `Contract::init` of the key-value variant (src/src/lib.rs): writes the
sentinel highest bid (the contract's own account, 1 yoctoNEAR, current
time/block/epoch metadata, premium false), the end time, the auctioneer,
`claimed = false`, an empty `Vec<u8>` under `vector`, the empty sdk
vector's metadata under `s` (length 0) and the empty iterable map's
metadata under `i` (size 0), into an initially empty store. -/
def init (env : Env) (end_time : Nat) (auctioneer : AccountId) : Store :=
  let highest_bid := mkBid env.current_account_id 1 env
  let st : Store := []
  let st := storage_write st .highest_bid (.vBid highest_bid)
  let st := storage_write st .auction_end_time (.vNat end_time)
  let st := storage_write st .auctioneer (.vAcc auctioneer)
  let st := storage_write st .claimed (.vBool false)
  let st := storage_write st .vector (.vBytes [])
  let st := storage_write st .s (.vNat 0)
  let st := storage_write st .i (.vNat 0)
  st

/-- `Contract::bid` of the key-value variant.  Reads and checks in the
source's order: end time first (`Auction has ended`), then the stored
highest bid (`You must place a higher bid`), then writes the new record
and returns the refund transfer to the previous bidder. -/
def bid (env : Env) (st : Store) : Except CallError (Store × Transfer) :=
  match readNat st .auction_end_time with
  | none => .error .storageCorrupt
  | some auction_end_time =>
    if env.block_timestamp < auction_end_time then
      match readBid st .highest_bid with
      | none => .error .storageCorrupt
      | some last =>
        if last.bid < env.attached_deposit then
          let newRecord := mkBid env.predecessor_account_id env.attached_deposit env
          .ok (storage_write st .highest_bid (.vBid newRecord),
               { recipient := last.bidder, amount := last.bid })
        else .error .bidTooLow
    else .error .auctionEnded

/-- `Contract::claim` of the key-value variant: requires the auction over
(`Auction has not ended yet`), requires not yet claimed (`Auction has
already been claimed`), writes `claimed = true`, then reads the
auctioneer and highest bid and returns the payout transfer. -/
def claim (env : Env) (st : Store) : Except CallError (Store × Transfer) :=
  match readNat st .auction_end_time with
  | none => .error .storageCorrupt
  | some auction_end_time =>
    if auction_end_time < env.block_timestamp then
      match readBool st .claimed with
      | none => .error .storageCorrupt
      | some claimed =>
        if claimed then .error .alreadyClaimed
        else
          let st' := storage_write st .claimed (.vBool true)
          match readAcc st' .auctioneer, readBid st' .highest_bid with
          | some auctioneer, some highest_bid =>
            .ok (st', { recipient := auctioneer, amount := highest_bid.bid })
          | _, _ => .error .storageCorrupt
    else .error .auctionNotEnded

/-- `Contract::fill_vector` of the key-value variant: appends the bytes
`0..=255, 0..` (that is, `i as u8` for `i in 0..1000`) to the stored
`Vec<u8>`. -/
def fill_vector (st : Store) : Except CallError Store :=
  match readBytes st .vector with
  | none => .error .storageCorrupt
  | some v =>
    .ok (storage_write st .vector (.vBytes (v ++ (List.range 1000).map (· % 256))))

/-- Element writes of `store::Vector::push` under prefix `b"s"`: writes
indices `start, start+1, ..., start+n-1` (value `j as u8`). -/
def writeSElems (st : Store) (start : Nat) : Nat → Store
  | 0 => st
  | m + 1 => storage_write (writeSElems st start m) (.sElem (start + m)) (.vNat (m % 256))

/-- `Contract::fill_sdk_vector` of the key-value variant: deserializes the
sdk vector metadata from slot `s`, pushes 1000 elements (each push
persisting one element slot under the `b"s"` prefix), and writes the
updated metadata back to slot `s`. -/
def fill_sdk_vector (st : Store) : Except CallError Store :=
  match readNat st .s with
  | none => .error .storageCorrupt
  | some len =>
    .ok (storage_write (writeSElems st len 1000) .s (.vNat (len + 1000)))

/-- Entry writes of `store::IterableMap::insert` under prefix `b"m"`:
inserts keys `i as u8` for `i in 0..n` (so keys `i % 256`). -/
def writeMElems (st : Store) : Nat → Store
  | 0 => st
  | m + 1 => storage_write (writeMElems st m) (.mElem (m % 256)) (.vNat (m % 256))

/-- `Contract::fill_sdk_iterable_map` of the key-value variant:
deserializes the map metadata from slot `i`, inserts 1000 entries (keys
`i as u8`, so 256 distinct entry slots under the `b"m"` prefix), and
writes the metadata back to slot `i`. -/
def fill_sdk_iterable_map (st : Store) : Except CallError Store :=
  match readNat st .i with
  | none => .error .storageCorrupt
  | some size =>
    .ok (storage_write (writeMElems st 1000) .i (.vNat size))

/-- `Contract::get_vector` of the key-value variant. -/
def get_vector (st : Store) : Except CallError (List Nat) :=
  match readBytes st .vector with
  | some l => .ok l
  | none => .error .storageCorrupt

/-- `Contract::get_sdk_vector` of the key-value variant: note it reads
slot `a`, not slot `s`. -/
def get_sdk_vector (st : Store) : Except CallError (List Nat) :=
  match readBytes st .a with
  | some l => .ok l
  | none => .error .storageCorrupt

/-- `Contract::get_highest_bid` of the key-value variant. -/
def get_highest_bid (st : Store) : Except CallError Bid :=
  match readBid st .highest_bid with
  | some b => .ok b
  | none => .error .storageCorrupt

/-- `Contract::get_auction_end_time` of the key-value variant. -/
def get_auction_end_time (st : Store) : Except CallError Nat :=
  match readNat st .auction_end_time with
  | some n => .ok n
  | none => .error .storageCorrupt

/-- `Contract::get_auctioneer` of the key-value variant. -/
def get_auctioneer (st : Store) : Except CallError AccountId :=
  match readAcc st .auctioneer with
  | some a => .ok a
  | none => .error .storageCorrupt

/-- `Contract::get_claimed` of the key-value variant. -/
def get_claimed (st : Store) : Except CallError Bool :=
  match readBool st .claimed with
  | some b => .ok b
  | none => .error .storageCorrupt

end KV

/-- The public mutating operations of the key-value variant, each with
its per-call environment where the source reads the env oracle. -/
inductive Op where
  | opBid (env : Env)
  | opClaim (env : Env)
  | opFillVector
  | opFillSdkVector
  | opFillSdkIterableMap
deriving Repr

/-- One call against the key-value contract.  A failing call reverts (the
NEAR runtime rolls back all storage writes of a panicking call), so it
leaves the store unchanged and issues no transfer. -/
def stepKV (st : Store) : Op → Store × Option Transfer
  | .opBid env =>
    match KV.bid env st with
    | .ok (st', t) => (st', some t)
    | .error _ => (st, none)
  | .opClaim env =>
    match KV.claim env st with
    | .ok (st', t) => (st', some t)
    | .error _ => (st, none)
  | .opFillVector =>
    match KV.fill_vector st with
    | .ok st' => (st', none)
    | .error _ => (st, none)
  | .opFillSdkVector =>
    match KV.fill_sdk_vector st with
    | .ok st' => (st', none)
    | .error _ => (st, none)
  | .opFillSdkIterableMap =>
    match KV.fill_sdk_iterable_map st with
    | .ok st' => (st', none)
    | .error _ => (st, none)

/-- The store after a sequence of calls. -/
def runKV (st : Store) : List Op → Store
  | [] => st
  | op :: ops => runKV (stepKV st op).1 ops

/-- The `Contract` struct of the struct-field variant
(tests/default-contract/src/lib.rs): all state lives in fields. -/
structure Contract where
  highest_bid : Bid
  auction_end_time : Nat
  auctioneer : AccountId
  claimed : Bool
  vector : List Nat
  sdk_vector : List Nat
  sdk_iterable_map : List (Nat × Nat)
deriving DecidableEq, Repr

namespace Contract

/-- `Contract::init` of the struct-field variant: the sentinel highest
bid (contract's own account, 1 yoctoNEAR, current time/block/epoch
metadata, premium false), the given end time and auctioneer,
`claimed = false`, and empty collections. -/
def init (env : Env) (end_time : Nat) (auctioneer : AccountId) : Contract :=
  { highest_bid := mkBid env.current_account_id 1 env
    auction_end_time := end_time
    auctioneer := auctioneer
    claimed := false
    vector := []
    sdk_vector := []
    sdk_iterable_map := [] }

/-- `Contract::bid` of the struct-field variant: requires the auction
ongoing, requires a strictly higher deposit, replaces `highest_bid`, and
refunds the previous bidder. -/
def bid (env : Env) (c : Contract) : Except CallError (Contract × Transfer) :=
  if env.block_timestamp < c.auction_end_time then
    let last := c.highest_bid
    if last.bid < env.attached_deposit then
      .ok ({ c with
              highest_bid := mkBid env.predecessor_account_id env.attached_deposit env },
           { recipient := last.bidder, amount := last.bid })
    else .error .bidTooLow
  else .error .auctionEnded

/-- `Contract::claim` of the struct-field variant: requires the auction
over, requires not yet claimed, sets `claimed`, and pays the highest bid
to the auctioneer. -/
def claim (env : Env) (c : Contract) : Except CallError (Contract × Transfer) :=
  if c.auction_end_time < env.block_timestamp then
    if c.claimed then .error .alreadyClaimed
    else
      .ok ({ c with claimed := true },
           { recipient := c.auctioneer, amount := c.highest_bid.bid })
  else .error .auctionNotEnded

/-- `Contract::get_highest_bid` of the struct-field variant. -/
def get_highest_bid (c : Contract) : Bid := c.highest_bid

/-- `Contract::get_auction_end_time` of the struct-field variant. -/
def get_auction_end_time (c : Contract) : Nat := c.auction_end_time

/-- `Contract::get_auctioneer` of the struct-field variant. -/
def get_auctioneer (c : Contract) : AccountId := c.auctioneer

/-- `Contract::get_claimed` of the struct-field variant. -/
def get_claimed (c : Contract) : Bool := c.claimed

end Contract

/-- The core auction operations common to both variants (the equivalence
claim ranges over these plus the four core accessors). -/
inductive CoreOp where
  | opBid (env : Env)
  | opClaim (env : Env)
deriving Repr

/-- The result trace of a sequence of core calls against the key-value
variant, with all-or-nothing per-call semantics: a failing call leaves
the store unchanged and records its error. -/
def runCoreKV (st : Store) : List CoreOp → Store × List (Except CallError Transfer)
  | [] => (st, [])
  | .opBid env :: ops =>
    match KV.bid env st with
    | .ok (st', t) =>
      let r := runCoreKV st' ops
      (r.1, .ok t :: r.2)
    | .error e =>
      let r := runCoreKV st ops
      (r.1, .error e :: r.2)
  | .opClaim env :: ops =>
    match KV.claim env st with
    | .ok (st', t) =>
      let r := runCoreKV st' ops
      (r.1, .ok t :: r.2)
    | .error e =>
      let r := runCoreKV st ops
      (r.1, .error e :: r.2)

/-- The result trace of a sequence of core calls against the struct-field
variant. -/
def runCoreS (c : Contract) : List CoreOp → Contract × List (Except CallError Transfer)
  | [] => (c, [])
  | .opBid env :: ops =>
    match Contract.bid env c with
    | .ok (c', t) =>
      let r := runCoreS c' ops
      (r.1, .ok t :: r.2)
    | .error e =>
      let r := runCoreS c ops
      (r.1, .error e :: r.2)
  | .opClaim env :: ops =>
    match Contract.claim env c with
    | .ok (c', t) =>
      let r := runCoreS c' ops
      (r.1, .ok t :: r.2)
    | .error e =>
      let r := runCoreS c ops
      (r.1, .error e :: r.2)

/-- The key-value store and the struct agree on the four core state
fields: each core slot holds exactly the corresponding struct field. -/
def coreAgree (c : Contract) (st : Store) : Prop :=
  readBid st .highest_bid = some c.highest_bid ∧
  readNat st .auction_end_time = some c.auction_end_time ∧
  readAcc st .auctioneer = some c.auctioneer ∧
  readBool st .claimed = some c.claimed

/-- The stored highest-bid amount of the key-value variant (0 when the
slot is absent or corrupt; every reachable state has the slot). -/
def bidAmount (st : Store) : Nat :=
  match readBid st .highest_bid with
  | some b => b.bid
  | none => 0

/-- Deployment-time environment of the concrete test scenario (mirrors
the repository's integration test: the contract account initializes at
time 0). -/
def envInit : Env :=
  { current_account_id := "contract.near"
    predecessor_account_id := "contract.near"
    attached_deposit := 0
    block_timestamp := 0
    block_height := 0
    epoch_height := 0 }

/-- Alice bids 1 yoctoNEAR at time 10 (before the end time). -/
def envAlice1 : Env :=
  { current_account_id := "contract.near"
    predecessor_account_id := "alice.near"
    attached_deposit := 1
    block_timestamp := 10
    block_height := 3
    epoch_height := 1 }

/-- Alice bids 2 yoctoNEAR at time 10 (before the end time). -/
def envAlice2 : Env :=
  { current_account_id := "contract.near"
    predecessor_account_id := "alice.near"
    attached_deposit := 2
    block_timestamp := 10
    block_height := 3
    epoch_height := 1 }

/-- Bob calls at time 2000 (after the end time) with deposit 5. -/
def envLate : Env :=
  { current_account_id := "contract.near"
    predecessor_account_id := "bob.near"
    attached_deposit := 5
    block_timestamp := 2000
    block_height := 9
    epoch_height := 2 }

/-- The store right after `init(end_time = 1000, auctioneer)` in the
concrete scenario. -/
def stInit : Store := KV.init envInit 1000 "auctioneer.near"

/-- The sentinel highest bid of the concrete scenario. -/
def sentinelBid : Bid := mkBid "contract.near" 1 envInit

/-- The struct-field contract right after `init` in the concrete
scenario. -/
def cInit : Contract := Contract.init envInit 1000 "auctioneer.near"

theorem storage_read_write (st : Store) (k k' : Key) (v : Value) :
    storage_read (storage_write st k v) k' =
      if k' = k then some v else storage_read st k' := by
  simp [storage_read, storage_write]

theorem readBid_write_ne (st : Store) (k k' : Key) (v : Value) (h : k' ≠ k) :
    readBid (storage_write st k v) k' = readBid st k' := by
  simp [readBid, storage_read_write, h]

theorem readNat_write_ne (st : Store) (k k' : Key) (v : Value) (h : k' ≠ k) :
    readNat (storage_write st k v) k' = readNat st k' := by
  simp [readNat, storage_read_write, h]

theorem readAcc_write_ne (st : Store) (k k' : Key) (v : Value) (h : k' ≠ k) :
    readAcc (storage_write st k v) k' = readAcc st k' := by
  simp [readAcc, storage_read_write, h]

theorem readBool_write_ne (st : Store) (k k' : Key) (v : Value) (h : k' ≠ k) :
    readBool (storage_write st k v) k' = readBool st k' := by
  simp [readBool, storage_read_write, h]

theorem bid_spec (env : Env) (st : Store) (e_t : Nat) (last : Bid)
    (hE : readNat st .auction_end_time = some e_t)
    (hB : readBid st .highest_bid = some last) :
    KV.bid env st =
      if env.block_timestamp < e_t then
        if last.bid < env.attached_deposit then
          .ok (storage_write st .highest_bid
                 (.vBid (mkBid env.predecessor_account_id env.attached_deposit env)),
               { recipient := last.bidder, amount := last.bid })
        else .error .bidTooLow
      else .error .auctionEnded := by
  simp [KV.bid, hE, hB]

theorem claim_spec (env : Env) (st : Store) (e_t : Nat) (cl : Bool)
    (auct : AccountId) (hb : Bid)
    (hE : readNat st .auction_end_time = some e_t)
    (hC : readBool st .claimed = some cl)
    (hA : readAcc st .auctioneer = some auct)
    (hB : readBid st .highest_bid = some hb) :
    KV.claim env st =
      if e_t < env.block_timestamp then
        if cl then .error .alreadyClaimed
        else .ok (storage_write st .claimed (.vBool true),
                  { recipient := auct, amount := hb.bid })
      else .error .auctionNotEnded := by
  have hA' : readAcc (storage_write st .claimed (.vBool true)) .auctioneer = some auct := by
    rw [readAcc_write_ne st _ _ _ (by decide)]; exact hA
  have hB' : readBid (storage_write st .claimed (.vBool true)) .highest_bid = some hb := by
    rw [readBid_write_ne st _ _ _ (by decide)]; exact hB
  simp [KV.claim, hE, hC, hA', hB']

theorem bid_ok_dest (env : Env) (st st' : Store) (t : Transfer)
    (h : KV.bid env st = .ok (st', t)) :
    ∃ e_t last, readNat st .auction_end_time = some e_t ∧
      env.block_timestamp < e_t ∧
      readBid st .highest_bid = some last ∧
      last.bid < env.attached_deposit ∧
      st' = storage_write st .highest_bid
              (.vBid (mkBid env.predecessor_account_id env.attached_deposit env)) ∧
      t = { recipient := last.bidder, amount := last.bid } := by
  unfold KV.bid at h
  split at h
  · simp at h
  next e_t hE =>
    split at h
    next hlt =>
      split at h
      · simp at h
      next last hB =>
        split at h
        next hbl =>
          simp only [Except.ok.injEq, Prod.mk.injEq] at h
          exact ⟨e_t, last, hE, hlt, hB, hbl, h.1.symm, h.2.symm⟩
        · simp at h
    · simp at h

theorem claim_ok_dest (env : Env) (st st' : Store) (t : Transfer)
    (h : KV.claim env st = .ok (st', t)) :
    ∃ e_t auct hb, readNat st .auction_end_time = some e_t ∧
      e_t < env.block_timestamp ∧
      readBool st .claimed = some false ∧
      readAcc st .auctioneer = some auct ∧
      readBid st .highest_bid = some hb ∧
      st' = storage_write st .claimed (.vBool true) ∧
      t = { recipient := auct, amount := hb.bid } := by
  unfold KV.claim at h
  split at h
  · simp at h
  next e_t hE =>
    split at h
    next hlt =>
      split at h
      · simp at h
      next cl hC =>
        split at h
        · simp at h
        next hcl =>
          simp only [] at h
          split at h
          next auct hb hA hB =>
            simp only [Except.ok.injEq, Prod.mk.injEq] at h
            have hcl' : cl = false := by cases cl <;> simp_all
            subst hcl'
            refine ⟨e_t, auct, hb, hE, hlt, hC, ?_, ?_, h.1.symm, h.2.symm⟩
            · rw [readAcc_write_ne st _ _ _ (by decide)] at hA; exact hA
            · rw [readBid_write_ne st _ _ _ (by decide)] at hB; exact hB
          · simp at h
    · simp at h

theorem storage_read_writeSElems (st : Store) (start n : Nat) (k : Key)
    (h : ∀ m, k ≠ .sElem m) :
    storage_read (KV.writeSElems st start n) k = storage_read st k := by
  induction n with
  | zero => rfl
  | succ m ih =>
    simp [KV.writeSElems, storage_write, storage_read, h (start + m), ih]

theorem storage_read_writeMElems (st : Store) (n : Nat) (k : Key)
    (h : ∀ m, k ≠ .mElem m) :
    storage_read (KV.writeMElems st n) k = storage_read st k := by
  induction n with
  | zero => rfl
  | succ m ih =>
    simp [KV.writeMElems, storage_write, storage_read, h (m % 256), ih]

theorem bid_frame (env : Env) (st st' : Store) (t : Transfer)
    (h : KV.bid env st = .ok (st', t)) (k : Key) (hk : k ≠ .highest_bid) :
    storage_read st' k = storage_read st k := by
  obtain ⟨e_t, last, _, _, _, _, hst, _⟩ := bid_ok_dest env st st' t h
  subst hst
  rw [storage_read_write, if_neg hk]

theorem claim_frame (env : Env) (st st' : Store) (t : Transfer)
    (h : KV.claim env st = .ok (st', t)) (k : Key) (hk : k ≠ .claimed) :
    storage_read st' k = storage_read st k := by
  obtain ⟨e_t, auct, hb, _, _, _, _, _, hst, _⟩ := claim_ok_dest env st st' t h
  subst hst
  rw [storage_read_write, if_neg hk]

theorem fill_vector_frame (st st' : Store)
    (h : KV.fill_vector st = .ok st') (k : Key) (hk : k ≠ .vector) :
    storage_read st' k = storage_read st k := by
  unfold KV.fill_vector at h
  split at h
  · simp at h
  next v hv =>
    simp only [Except.ok.injEq] at h
    subst h
    rw [storage_read_write, if_neg hk]

theorem fill_sdk_vector_frame (st st' : Store)
    (h : KV.fill_sdk_vector st = .ok st') (k : Key) (hk : k ≠ .s)
    (hk' : ∀ m, k ≠ .sElem m) :
    storage_read st' k = storage_read st k := by
  unfold KV.fill_sdk_vector at h
  split at h
  · simp at h
  next len hlen =>
    simp only [Except.ok.injEq] at h
    subst h
    rw [storage_read_write, if_neg hk, storage_read_writeSElems st len 1000 k hk']

theorem fill_sdk_iterable_map_frame (st st' : Store)
    (h : KV.fill_sdk_iterable_map st = .ok st') (k : Key) (hk : k ≠ .i)
    (hk' : ∀ m, k ≠ .mElem m) :
    storage_read st' k = storage_read st k := by
  unfold KV.fill_sdk_iterable_map at h
  split at h
  · simp at h
  next size hsize =>
    simp only [Except.ok.injEq] at h
    subst h
    rw [storage_read_write, if_neg hk, storage_read_writeMElems st 1000 k hk']

theorem stepKV_frame (st : Store) (op : Op) (k : Key)
    (h1 : k ≠ .highest_bid) (h2 : k ≠ .claimed) (h3 : k ≠ .vector)
    (h4 : k ≠ .s) (h5 : k ≠ .i)
    (h6 : ∀ m, k ≠ .sElem m) (h7 : ∀ m, k ≠ .mElem m) :
    storage_read (stepKV st op).1 k = storage_read st k := by
  cases op with
  | opBid env =>
    cases hr : KV.bid env st with
    | ok p => simp only [stepKV, hr]; exact bid_frame env st p.1 p.2 hr k h1
    | error e => simp [stepKV, hr]
  | opClaim env =>
    cases hr : KV.claim env st with
    | ok p => simp only [stepKV, hr]; exact claim_frame env st p.1 p.2 hr k h2
    | error e => simp [stepKV, hr]
  | opFillVector =>
    cases hr : KV.fill_vector st with
    | ok st' => simp only [stepKV, hr]; exact fill_vector_frame st st' hr k h3
    | error e => simp [stepKV, hr]
  | opFillSdkVector =>
    cases hr : KV.fill_sdk_vector st with
    | ok st' => simp only [stepKV, hr]; exact fill_sdk_vector_frame st st' hr k h4 h6
    | error e => simp [stepKV, hr]
  | opFillSdkIterableMap =>
    cases hr : KV.fill_sdk_iterable_map st with
    | ok st' => simp only [stepKV, hr]; exact fill_sdk_iterable_map_frame st st' hr k h5 h7
    | error e => simp [stepKV, hr]

theorem stepKV_claimed_true (st : Store) (op : Op)
    (h : readBool st .claimed = some true) :
    readBool (stepKV st op).1 .claimed = some true := by
  cases op with
  | opClaim env =>
    cases hr : KV.claim env st with
    | ok p =>
      obtain ⟨e_t, auct, hb, _, _, _, _, _, hst, _⟩ :=
        claim_ok_dest env st p.1 p.2 hr
      simp only [stepKV, hr]
      rw [hst]
      simp [readBool, storage_read_write]
    | error e => simpa [stepKV, hr] using h
  | opBid env =>
    cases hr : KV.bid env st with
    | ok p =>
      simp only [stepKV, hr]
      rw [show readBool p.1 Key.claimed = readBool st Key.claimed from by
        simp [readBool, bid_frame env st p.1 p.2 hr Key.claimed (by decide)]]
      exact h
    | error e => simpa [stepKV, hr] using h
  | opFillVector =>
    cases hr : KV.fill_vector st with
    | ok st' =>
      simp only [stepKV, hr]
      rw [show readBool st' Key.claimed = readBool st Key.claimed from by
        simp [readBool, fill_vector_frame st st' hr Key.claimed (by decide)]]
      exact h
    | error e => simpa [stepKV, hr] using h
  | opFillSdkVector =>
    cases hr : KV.fill_sdk_vector st with
    | ok st' =>
      simp only [stepKV, hr]
      rw [show readBool st' Key.claimed = readBool st Key.claimed from by
        simp [readBool,
          fill_sdk_vector_frame st st' hr Key.claimed (by decide) (fun m => by simp)]]
      exact h
    | error e => simpa [stepKV, hr] using h
  | opFillSdkIterableMap =>
    cases hr : KV.fill_sdk_iterable_map st with
    | ok st' =>
      simp only [stepKV, hr]
      rw [show readBool st' Key.claimed = readBool st Key.claimed from by
        simp [readBool,
          fill_sdk_iterable_map_frame st st' hr Key.claimed (by decide) (fun m => by simp)]]
      exact h
    | error e => simpa [stepKV, hr] using h

theorem init_reads (env : Env) (e_t : Nat) (a : AccountId) :
    readBid (KV.init env e_t a) .highest_bid = some (mkBid env.current_account_id 1 env) ∧
    readNat (KV.init env e_t a) .auction_end_time = some e_t ∧
    readAcc (KV.init env e_t a) .auctioneer = some a ∧
    readBool (KV.init env e_t a) .claimed = some false ∧
    storage_read (KV.init env e_t a) .a = none :=
  ⟨rfl, rfl, rfl, rfl, rfl⟩

theorem bidAmount_congr (st st' : Store)
    (h : storage_read st' .highest_bid = storage_read st .highest_bid) :
    bidAmount st' = bidAmount st := by
  simp [bidAmount, readBid, h]

theorem contract_bid_spec (env : Env) (c : Contract) :
    Contract.bid env c =
      if env.block_timestamp < c.auction_end_time then
        if c.highest_bid.bid < env.attached_deposit then
          .ok ({ c with
                  highest_bid := mkBid env.predecessor_account_id env.attached_deposit env },
               { recipient := c.highest_bid.bidder, amount := c.highest_bid.bid })
        else .error .bidTooLow
      else .error .auctionEnded := rfl

theorem contract_claim_spec (env : Env) (c : Contract) :
    Contract.claim env c =
      if c.auction_end_time < env.block_timestamp then
        if c.claimed then .error .alreadyClaimed
        else .ok ({ c with claimed := true },
                  { recipient := c.auctioneer, amount := c.highest_bid.bid })
      else .error .auctionNotEnded := rfl

/-- C7: after `init(end_time, auctioneer)` returns, all four core state
fields are written: `highest_bid` is the sentinel record owned by the
contract's own account with amount 1 yoctoNEAR, current time/block/epoch
metadata and `premium = false`; `claimed` is false; and the stored
`auction_end_time` and `auctioneer` equal the given arguments. -/
theorem init_writes_all_core_fields (env : Env) (end_time : Nat) (auctioneer : AccountId) :
    readBid (KV.init env end_time auctioneer) .highest_bid =
      some { bidder := env.current_account_id
             bid := 1
             bid_time := env.block_timestamp
             bid_block_height := env.block_height
             bid_block_timestamp := env.block_timestamp
             bid_epoch_height := env.epoch_height
             premium := false } ∧
    readNat (KV.init env end_time auctioneer) .auction_end_time = some end_time ∧
    readAcc (KV.init env end_time auctioneer) .auctioneer = some auctioneer ∧
    readBool (KV.init env end_time auctioneer) .claimed = some false :=
  ⟨rfl, rfl, rfl, rfl⟩

/-- C6 counterexample: in the state immediately after init (sentinel bid
of 1 yoctoNEAR), a bid by alice attaching exactly 1 yoctoNEAR before the
end time is rejected with `BidTooLow` (the code requires a strictly
higher deposit), not accepted as the claim states. -/
theorem bid_of_exactly_one_rejected :
    KV.bid envAlice1 stInit = .error .bidTooLow := rfl

/-- C6 amended: in the state immediately after init, a bid by alice
attaching strictly more than the 1-yoctoNEAR sentinel, made before
`end_time`, is accepted and `highest_bid` becomes alice's record with
that amount. -/
theorem first_bid_above_sentinel_accepted (e0 env : Env) (end_time : Nat)
    (auctioneer : AccountId) (hlt : env.block_timestamp < end_time)
    (hamt : 1 < env.attached_deposit) :
    ∃ st' t, KV.bid env (KV.init e0 end_time auctioneer) = .ok (st', t) ∧
      readBid st' .highest_bid =
        some (mkBid env.predecessor_account_id env.attached_deposit env) := by
  have h := bid_spec env (KV.init e0 end_time auctioneer) end_time
    (mkBid e0.current_account_id 1 e0)
    (init_reads e0 end_time auctioneer).2.1 (init_reads e0 end_time auctioneer).1
  rw [h, if_pos hlt,
    if_pos (show (mkBid e0.current_account_id 1 e0).bid < env.attached_deposit from hamt)]
  exact ⟨_, _, rfl, by simp [readBid, storage_read_write]⟩

/-- Witness for the amended C6: alice's 2-yoctoNEAR bid at time 10
(before end time 1000) is accepted. -/
theorem first_bid_above_sentinel_accepted_witness :
    ∃ st' t, KV.bid envAlice2 (KV.init envInit 1000 "auctioneer.near") = .ok (st', t) ∧
      readBid st' .highest_bid =
        some (mkBid envAlice2.predecessor_account_id envAlice2.attached_deposit envAlice2) :=
  first_bid_above_sentinel_accepted envInit envAlice2 1000 "auctioneer.near"
    (by decide) (by decide)

/-- C1: across any single public operation the stored highest-bid amount
never decreases, and an accepted bid strictly increases it (the new
amount strictly exceeds the amount it replaces); hence across successive
accepted bids from init the stored amount is strictly increasing, never
decreasing and never repeating. -/
theorem highest_bid_amount_strictly_increases (st : Store) (op : Op) :
    bidAmount st ≤ bidAmount (stepKV st op).1 ∧
    ∀ env st' t, op = .opBid env → KV.bid env st = .ok (st', t) →
      bidAmount st < bidAmount st' := by
  have key : ∀ env st' t, KV.bid env st = .ok (st', t) → bidAmount st < bidAmount st' := by
    intro env st' t h
    obtain ⟨e_t, last, hE, hlt, hB, hbl, hst, ht⟩ := bid_ok_dest env st st' t h
    have h1 : bidAmount st = last.bid := by simp [bidAmount, hB]
    have h2 : bidAmount st' = env.attached_deposit := by
      subst hst
      simp [bidAmount, readBid, storage_read_write, mkBid]
    rw [h1, h2]
    exact hbl
  refine ⟨?_, fun env st' t hop h => key env st' t h⟩
  cases op with
  | opBid env =>
    cases hr : KV.bid env st with
    | ok p =>
      simp only [stepKV, hr]
      exact le_of_lt (key env p.1 p.2 hr)
    | error e => simp [stepKV, hr]
  | opClaim env =>
    cases hr : KV.claim env st with
    | ok p =>
      simp only [stepKV, hr]
      exact le_of_eq (bidAmount_congr st p.1
        (claim_frame env st p.1 p.2 hr .highest_bid (by decide))).symm
    | error e => simp [stepKV, hr]
  | opFillVector =>
    cases hr : KV.fill_vector st with
    | ok st' =>
      simp only [stepKV, hr]
      exact le_of_eq (bidAmount_congr st st'
        (fill_vector_frame st st' hr .highest_bid (by decide))).symm
    | error e => simp [stepKV, hr]
  | opFillSdkVector =>
    cases hr : KV.fill_sdk_vector st with
    | ok st' =>
      simp only [stepKV, hr]
      exact le_of_eq (bidAmount_congr st st'
        (fill_sdk_vector_frame st st' hr .highest_bid (by decide) (fun m => by simp))).symm
    | error e => simp [stepKV, hr]
  | opFillSdkIterableMap =>
    cases hr : KV.fill_sdk_iterable_map st with
    | ok st' =>
      simp only [stepKV, hr]
      exact le_of_eq (bidAmount_congr st st'
        (fill_sdk_iterable_map_frame st st' hr .highest_bid (by decide) (fun m => by simp))).symm
    | error e => simp [stepKV, hr]

/-- Witness for C1: alice's accepted 2-yoctoNEAR bid strictly increases
the stored amount over the 1-yoctoNEAR sentinel. -/
theorem highest_bid_amount_strictly_increases_witness :
    bidAmount stInit <
      bidAmount (storage_write stInit .highest_bid
        (.vBid (mkBid "alice.near" 2 envAlice2))) :=
  (highest_bid_amount_strictly_increases stInit (.opBid envAlice2)).2 envAlice2
    (storage_write stInit .highest_bid (.vBid (mkBid "alice.near" 2 envAlice2)))
    { recipient := "contract.near", amount := 1 } rfl rfl

/-- C2: over any state whose end time and highest bid slots are readable,
`bid` fails with `AuctionEnded` whenever the current time is not strictly
below the end time (this check comes first, i.e. it fires regardless of
the deposit), fails with `BidTooLow` whenever the time check passes but
the attached deposit is not strictly above the stored amount, succeeds
otherwise, and any failing call leaves the store unchanged and issues no
transfer. -/
theorem bid_fails_exactly_on_precondition (env : Env) (st : Store) (e_t : Nat) (b : Bid)
    (hE : readNat st .auction_end_time = some e_t)
    (hB : readBid st .highest_bid = some b) :
    (e_t ≤ env.block_timestamp → KV.bid env st = .error .auctionEnded) ∧
    (env.block_timestamp < e_t → env.attached_deposit ≤ b.bid →
      KV.bid env st = .error .bidTooLow) ∧
    (env.block_timestamp < e_t → b.bid < env.attached_deposit →
      (KV.bid env st).isOk = true) ∧
    (∀ e, KV.bid env st = .error e → stepKV st (.opBid env) = (st, none)) := by
  have hs := bid_spec env st e_t b hE hB
  refine ⟨?_, ?_, ?_, ?_⟩
  · intro h
    rw [hs, if_neg (Nat.not_lt.mpr h)]
  · intro h1 h2
    rw [hs, if_pos h1, if_neg (Nat.not_lt.mpr h2)]
  · intro h1 h2
    rw [hs, if_pos h1, if_pos h2]
    rfl
  · intro e he
    simp [stepKV, he]

/-- Witness for C2: bob's late call at time 2000 (end time 1000) fails
with `AuctionEnded`. -/
theorem bid_fails_exactly_on_precondition_witness :
    KV.bid envLate stInit = .error .auctionEnded :=
  (bid_fails_exactly_on_precondition envLate stInit 1000 sentinelBid rfl rfl).1
    (by decide)

/-- C3: over any state whose core slots are readable, `claim` fails with
`AuctionNotEnded` (leaving `claimed` unchanged) whenever the current time
is not strictly above the end time; the first claim after the end time
with `claimed = false` succeeds and sets `claimed = true`; a claim with
`claimed = true` after the end time fails with `AlreadyClaimed`, issues
no transfer and leaves `claimed` true; and once `claimed` reads true, no
operation whatsoever makes it read anything but true again. -/
theorem claimed_transitions_exactly_once (env : Env) (st : Store) (e_t : Nat)
    (auct : AccountId) (hb : Bid)
    (hE : readNat st .auction_end_time = some e_t)
    (hA : readAcc st .auctioneer = some auct)
    (hB : readBid st .highest_bid = some hb) :
    (env.block_timestamp ≤ e_t →
      KV.claim env st = .error .auctionNotEnded ∧
      stepKV st (.opClaim env) = (st, none)) ∧
    (e_t < env.block_timestamp → readBool st .claimed = some false →
      ∃ st', KV.claim env st = .ok (st', { recipient := auct, amount := hb.bid }) ∧
        readBool st' .claimed = some true) ∧
    (e_t < env.block_timestamp → readBool st .claimed = some true →
      KV.claim env st = .error .alreadyClaimed ∧
      stepKV st (.opClaim env) = (st, none) ∧
      readBool (stepKV st (.opClaim env)).1 .claimed = some true) ∧
    (∀ op, readBool st .claimed = some true →
      readBool (stepKV st op).1 .claimed = some true) := by
  refine ⟨?_, ?_, ?_, fun op h => stepKV_claimed_true st op h⟩
  · intro h
    have he : KV.claim env st = .error .auctionNotEnded := by
      simp only [KV.claim, hE]
      rw [if_neg (Nat.not_lt.mpr h)]
    exact ⟨he, by simp [stepKV, he]⟩
  · intro h1 hC
    have hs := claim_spec env st e_t false auct hb hE hC hA hB
    rw [hs, if_pos h1]
    refine ⟨storage_write st .claimed (.vBool true), ?_, ?_⟩
    · simp
    · simp [readBool, storage_read_write]
  · intro h1 hC
    have hs := claim_spec env st e_t true auct hb hE hC hA hB
    rw [hs, if_pos h1]
    have he : KV.claim env st = .error .alreadyClaimed := by rw [hs, if_pos h1]; rfl
    exact ⟨rfl, by simp [stepKV, he], by simp [stepKV, he, hC]⟩

/-- Witness for C3: bob's claim at time 2000 on the fresh (unclaimed)
state succeeds, paying the auctioneer the sentinel amount and setting
`claimed` true. -/
theorem claimed_transitions_exactly_once_witness :
    ∃ st', KV.claim envLate stInit =
        .ok (st', { recipient := "auctioneer.near", amount := 1 }) ∧
      readBool st' .claimed = some true :=
  (claimed_transitions_exactly_once envLate stInit 1000 "auctioneer.near"
    sentinelBid rfl rfl rfl).2.1 (by decide) rfl

/-- C4: whenever `bid` is accepted it replaces `highest_bid` with the
caller's record (attached amount, current time, block height and epoch,
`premium = false`) and issues exactly one refund transfer of the full
previous amount to the previous bidder. -/
theorem accepted_bid_replaces_and_refunds (env : Env) (st st' : Store) (t : Transfer)
    (h : KV.bid env st = .ok (st', t)) :
    readBid st' .highest_bid =
      some { bidder := env.predecessor_account_id
             bid := env.attached_deposit
             bid_time := env.block_timestamp
             bid_block_height := env.block_height
             bid_block_timestamp := env.block_timestamp
             bid_epoch_height := env.epoch_height
             premium := false } ∧
    (∃ last, readBid st .highest_bid = some last ∧
      t = { recipient := last.bidder, amount := last.bid }) ∧
    stepKV st (.opBid env) = (st', some t) := by
  obtain ⟨e_t, last, hE, hlt, hB, hbl, hst, ht⟩ := bid_ok_dest env st st' t h
  refine ⟨?_, ⟨last, hB, ht⟩, by simp [stepKV, h]⟩
  subst hst
  simp [readBid, storage_read_write, mkBid]

/-- Witness for C4: alice's accepted 2-yoctoNEAR bid stores her record
and refunds the 1-yoctoNEAR sentinel to the contract account. -/
theorem accepted_bid_replaces_and_refunds_witness :
    readBid (storage_write stInit .highest_bid
        (.vBid (mkBid "alice.near" 2 envAlice2))) .highest_bid =
      some { bidder := envAlice2.predecessor_account_id
             bid := envAlice2.attached_deposit
             bid_time := envAlice2.block_timestamp
             bid_block_height := envAlice2.block_height
             bid_block_timestamp := envAlice2.block_timestamp
             bid_epoch_height := envAlice2.epoch_height
             premium := false } ∧
    (∃ last, readBid stInit .highest_bid = some last ∧
      ({ recipient := "contract.near", amount := 1 } : Transfer) =
        { recipient := last.bidder, amount := last.bid }) ∧
    stepKV stInit (.opBid envAlice2) =
      (storage_write stInit .highest_bid (.vBid (mkBid "alice.near" 2 envAlice2)),
       some { recipient := "contract.near", amount := 1 }) :=
  accepted_bid_replaces_and_refunds envAlice2 stInit
    (storage_write stInit .highest_bid (.vBid (mkBid "alice.near" 2 envAlice2)))
    { recipient := "contract.near", amount := 1 } rfl

/-- C5: `claim` depends on the caller only through the block timestamp
(caller identity is never checked), a successful claim pays exactly the
stored highest bid amount to the stored auctioneer, and a failed claim
leaves the store unchanged and issues no transfer. -/
theorem claim_pays_stored_auctioneer (st : Store) :
    (∀ env env', env.block_timestamp = env'.block_timestamp →
      KV.claim env st = KV.claim env' st) ∧
    (∀ env st' t, KV.claim env st = .ok (st', t) →
      readAcc st .auctioneer = some t.recipient ∧
      ∃ hb, readBid st .highest_bid = some hb ∧ t.amount = hb.bid) ∧
    (∀ env e, KV.claim env st = .error e → stepKV st (.opClaim env) = (st, none)) := by
  refine ⟨?_, ?_, ?_⟩
  · intro env env' h
    unfold KV.claim
    rw [h]
  · intro env st' t h
    obtain ⟨e_t, auct, hb, hE, hlt, hC, hA, hB, hst, ht⟩ := claim_ok_dest env st st' t h
    subst ht
    exact ⟨hA, hb, hB, rfl⟩
  · intro env e h
    simp [stepKV, h]

/-- Witness for C5: bob's successful claim at time 2000 pays the stored
auctioneer the stored sentinel amount. -/
theorem claim_pays_stored_auctioneer_witness :
    readAcc stInit .auctioneer = some "auctioneer.near" ∧
    ∃ hb, readBid stInit .highest_bid = some hb ∧ (1 : Token) = hb.bid :=
  (claim_pays_stored_auctioneer stInit).2.1 envLate
    (storage_write stInit .claimed (.vBool true))
    { recipient := "auctioneer.near", amount := 1 } rfl

/-- C9: every `bid` and every `claim`, succeeding or failing, leaves the
auctioneer and end time slots unchanged; `bid` additionally leaves
`claimed` unchanged and `claim` leaves `highest_bid` unchanged — and the
same frame conditions hold in the struct-field variant. -/
theorem auctioneer_end_time_immutable (st : Store) (env : Env) :
    readAcc (stepKV st (.opBid env)).1 .auctioneer = readAcc st .auctioneer ∧
    readNat (stepKV st (.opBid env)).1 .auction_end_time = readNat st .auction_end_time ∧
    readBool (stepKV st (.opBid env)).1 .claimed = readBool st .claimed ∧
    readAcc (stepKV st (.opClaim env)).1 .auctioneer = readAcc st .auctioneer ∧
    readNat (stepKV st (.opClaim env)).1 .auction_end_time = readNat st .auction_end_time ∧
    readBid (stepKV st (.opClaim env)).1 .highest_bid = readBid st .highest_bid ∧
    (∀ c c' t, Contract.bid env c = .ok (c', t) →
      c'.auctioneer = c.auctioneer ∧ c'.auction_end_time = c.auction_end_time ∧
      c'.claimed = c.claimed) ∧
    (∀ c c' t, Contract.claim env c = .ok (c', t) →
      c'.auctioneer = c.auctioneer ∧ c'.auction_end_time = c.auction_end_time ∧
      c'.highest_bid = c.highest_bid) := by
  have hbid : ∀ k : Key, k ≠ .highest_bid →
      storage_read (stepKV st (.opBid env)).1 k = storage_read st k := by
    intro k hk
    cases hr : KV.bid env st with
    | ok p => simp only [stepKV, hr]; exact bid_frame env st p.1 p.2 hr k hk
    | error e => simp [stepKV, hr]
  have hclaim : ∀ k : Key, k ≠ .claimed →
      storage_read (stepKV st (.opClaim env)).1 k = storage_read st k := by
    intro k hk
    cases hr : KV.claim env st with
    | ok p => simp only [stepKV, hr]; exact claim_frame env st p.1 p.2 hr k hk
    | error e => simp [stepKV, hr]
  refine ⟨?_, ?_, ?_, ?_, ?_, ?_, ?_, ?_⟩
  · simp [readAcc, hbid Key.auctioneer (by decide)]
  · simp [readNat, hbid Key.auction_end_time (by decide)]
  · simp [readBool, hbid Key.claimed (by decide)]
  · simp [readAcc, hclaim Key.auctioneer (by decide)]
  · simp [readNat, hclaim Key.auction_end_time (by decide)]
  · simp [readBid, hclaim Key.highest_bid (by decide)]
  · intro c c' t h
    rw [contract_bid_spec] at h
    by_cases h1 : env.block_timestamp < c.auction_end_time
    · rw [if_pos h1] at h
      by_cases h2 : c.highest_bid.bid < env.attached_deposit
      · rw [if_pos h2] at h
        simp only [Except.ok.injEq, Prod.mk.injEq] at h
        rw [← h.1]
        exact ⟨rfl, rfl, rfl⟩
      · rw [if_neg h2] at h; simp at h
    · rw [if_neg h1] at h; simp at h
  · intro c c' t h
    rw [contract_claim_spec] at h
    by_cases h1 : c.auction_end_time < env.block_timestamp
    · rw [if_pos h1] at h
      by_cases h2 : c.claimed
      · rw [if_pos h2] at h; simp at h
      · rw [if_neg h2] at h
        simp only [Except.ok.injEq, Prod.mk.injEq] at h
        rw [← h.1]
        exact ⟨rfl, rfl, rfl⟩
    · rw [if_neg h1] at h; simp at h

/-- Witness for C9: alice's accepted bid in the struct-field variant
leaves auctioneer, end time and claimed unchanged. -/
theorem auctioneer_end_time_immutable_witness :
    ({ cInit with highest_bid := mkBid "alice.near" 2 envAlice2 } : Contract).auctioneer =
        cInit.auctioneer ∧
      ({ cInit with highest_bid := mkBid "alice.near" 2 envAlice2 } : Contract).auction_end_time =
        cInit.auction_end_time ∧
      ({ cInit with highest_bid := mkBid "alice.near" 2 envAlice2 } : Contract).claimed =
        cInit.claimed :=
  (auctioneer_end_time_immutable stInit envAlice2).2.2.2.2.2.2.1 cInit
    { cInit with highest_bid := mkBid "alice.near" 2 envAlice2 }
    { recipient := "contract.near", amount := 1 } rfl

theorem runKV_read_a (st : Store) (ops : List Op)
    (h : storage_read st .a = none) :
    storage_read (runKV st ops) .a = none := by
  induction ops generalizing st with
  | nil => exact h
  | cons op ops ih =>
    rw [runKV]
    refine ih _ ?_
    rw [stepKV_frame st op .a (by decide) (by decide) (by decide) (by decide)
      (by decide) (fun m => by simp) (fun m => by simp)]
    exact h

/-- C10: `get_sdk_vector` of the key-value variant reads slot `a`, which
`init` (which stores the sdk vector metadata under slot `s`) and every
other public operation never write; so in every state reachable through
the public operations it fails (the storage read returns absent) instead
of returning the stored sdk vector. -/
theorem get_sdk_vector_always_fails (e0 : Env) (e_t : Nat) (a : AccountId)
    (ops : List Op) :
    KV.get_sdk_vector (runKV (KV.init e0 e_t a) ops) = .error .storageCorrupt := by
  have h := runKV_read_a (KV.init e0 e_t a) ops (init_reads e0 e_t a).2.2.2.2
  simp [KV.get_sdk_vector, readBytes, h]

theorem coreAgree_init (e0 : Env) (e_t : Nat) (a : AccountId) :
    coreAgree (Contract.init e0 e_t a) (KV.init e0 e_t a) :=
  ⟨rfl, rfl, rfl, rfl⟩

theorem bid_agree (env : Env) (c : Contract) (st : Store) (h : coreAgree c st) :
    (∃ e, KV.bid env st = .error e ∧ Contract.bid env c = .error e) ∨
    (∃ st' c' t, KV.bid env st = .ok (st', t) ∧ Contract.bid env c = .ok (c', t) ∧
      coreAgree c' st') := by
  obtain ⟨hB, hE, hA, hC⟩ := h
  have hs := bid_spec env st c.auction_end_time c.highest_bid hE hB
  rw [contract_bid_spec]
  by_cases h1 : env.block_timestamp < c.auction_end_time
  · by_cases h2 : c.highest_bid.bid < env.attached_deposit
    · right
      refine ⟨_, _, _, by rw [hs, if_pos h1, if_pos h2], by rw [if_pos h1, if_pos h2],
        ?_, ?_, ?_, ?_⟩
      · simp [readBid, storage_read_write]
      · rw [readNat_write_ne st _ _ _ (by decide)]
        exact hE
      · rw [readAcc_write_ne st _ _ _ (by decide)]
        exact hA
      · rw [readBool_write_ne st _ _ _ (by decide)]
        exact hC
    · exact .inl ⟨.bidTooLow, by rw [hs, if_pos h1, if_neg h2],
        by rw [if_pos h1, if_neg h2]⟩
  · exact .inl ⟨.auctionEnded, by rw [hs, if_neg h1], by rw [if_neg h1]⟩

theorem claim_agree (env : Env) (c : Contract) (st : Store) (h : coreAgree c st) :
    (∃ e, KV.claim env st = .error e ∧ Contract.claim env c = .error e) ∨
    (∃ st' c' t, KV.claim env st = .ok (st', t) ∧ Contract.claim env c = .ok (c', t) ∧
      coreAgree c' st') := by
  obtain ⟨hB, hE, hA, hC⟩ := h
  have hs := claim_spec env st c.auction_end_time c.claimed c.auctioneer
    c.highest_bid hE hC hA hB
  rw [contract_claim_spec]
  by_cases h1 : c.auction_end_time < env.block_timestamp
  · by_cases h2 : c.claimed
    · exact .inl ⟨.alreadyClaimed, by rw [hs, if_pos h1, if_pos h2],
        by rw [if_pos h1, if_pos h2]⟩
    · right
      refine ⟨_, _, _, by rw [hs, if_pos h1, if_neg h2], by rw [if_pos h1, if_neg h2],
        ?_, ?_, ?_, ?_⟩
      · rw [readBid_write_ne st _ _ _ (by decide)]
        exact hB
      · rw [readNat_write_ne st _ _ _ (by decide)]
        exact hE
      · rw [readAcc_write_ne st _ _ _ (by decide)]
        exact hA
      · simp [readBool, storage_read_write]
  · exact .inl ⟨.auctionNotEnded, by rw [hs, if_neg h1], by rw [if_neg h1]⟩

theorem runCore_agree (ops : List CoreOp) (c : Contract) (st : Store)
    (h : coreAgree c st) :
    (runCoreKV st ops).2 = (runCoreS c ops).2 ∧
    coreAgree (runCoreS c ops).1 (runCoreKV st ops).1 := by
  induction ops generalizing c st with
  | nil => exact ⟨rfl, h⟩
  | cons op ops ih =>
    cases op with
    | opBid env =>
      rcases bid_agree env c st h with ⟨e, hk, hs⟩ | ⟨st', c', t, hk, hs, h'⟩
      · simp only [runCoreKV, runCoreS, hk, hs]
        exact ⟨by rw [(ih c st h).1], (ih c st h).2⟩
      · simp only [runCoreKV, runCoreS, hk, hs]
        exact ⟨by rw [(ih c' st' h').1], (ih c' st' h').2⟩
    | opClaim env =>
      rcases claim_agree env c st h with ⟨e, hk, hs⟩ | ⟨st', c', t, hk, hs, h'⟩
      · simp only [runCoreKV, runCoreS, hk, hs]
        exact ⟨by rw [(ih c st h).1], (ih c st h).2⟩
      · simp only [runCoreKV, runCoreS, hk, hs]
        exact ⟨by rw [(ih c' st' h').1], (ih c' st' h').2⟩

/-- C8: the raw key-value-slot variant and the struct-field variant are
behaviorally equivalent: starting from `init` with the same arguments
and deployment environment, every sequence of `bid` / `claim` calls with
the same per-call environments produces identical result traces (same
successes with the same transfers, same failures with the same errors),
and afterwards the four core accessors of the two variants observe the
same auction state. -/
theorem variants_equivalent (e0 : Env) (e_t : Nat) (a : AccountId) (ops : List CoreOp) :
    (runCoreKV (KV.init e0 e_t a) ops).2 = (runCoreS (Contract.init e0 e_t a) ops).2 ∧
    KV.get_highest_bid (runCoreKV (KV.init e0 e_t a) ops).1 =
      .ok (Contract.get_highest_bid (runCoreS (Contract.init e0 e_t a) ops).1) ∧
    KV.get_auction_end_time (runCoreKV (KV.init e0 e_t a) ops).1 =
      .ok (Contract.get_auction_end_time (runCoreS (Contract.init e0 e_t a) ops).1) ∧
    KV.get_auctioneer (runCoreKV (KV.init e0 e_t a) ops).1 =
      .ok (Contract.get_auctioneer (runCoreS (Contract.init e0 e_t a) ops).1) ∧
    KV.get_claimed (runCoreKV (KV.init e0 e_t a) ops).1 =
      .ok (Contract.get_claimed (runCoreS (Contract.init e0 e_t a) ops).1) := by
  obtain ⟨htr, hB, hE, hA, hC⟩ :=
    runCore_agree ops (Contract.init e0 e_t a) (KV.init e0 e_t a)
      (coreAgree_init e0 e_t a)
  refine ⟨htr, ?_, ?_, ?_, ?_⟩
  · simp [KV.get_highest_bid, Contract.get_highest_bid, hB]
  · simp [KV.get_auction_end_time, Contract.get_auction_end_time, hE]
  · simp [KV.get_auctioneer, Contract.get_auctioneer, hA]
  · simp [KV.get_claimed, Contract.get_claimed, hC]
